import Mathlib

/-!
Verification of the crystallographic-structure core (`lib/cryst.js`) of the
`crystcif-parse` package: a shallow embedding in Lean 4 of the cell-geometry
conversions, the CIF block extractors, the symmetry-orbit expansion, the
`Atoms` structure model and the `readCif` orchestrator, together with theorems
settling the specification's claims about them.

Numbers are modelled by the exact reals `ℝ` (the source uses IEEE doubles);
the JavaScript generic vector/matrix collaborators (`mathjs`) and the small
arithmetic helpers of `utils.js` are modelled by their exact mathematical
counterparts.  Comparisons on `ℝ` are classical, so several definitions are
`noncomputable`; concrete evaluations in witnesses go through `simp`/`norm_num`.
-/

open Classical

noncomputable section

/-- 3-vectors, as ordered triples of reals (rows of JS length-3 arrays). -/
abbrev Vec3 : Type := ℝ × ℝ × ℝ

/-- 3×3 matrices as triples of row vectors (JS arrays of length-3 arrays). -/
abbrev Mat3 : Type := Vec3 × Vec3 × Vec3

/-- Dot product (`mjs.dot`, an external collaborator modelled exactly). -/
def dot3 (u v : Vec3) : ℝ := u.1 * v.1 + u.2.1 * v.2.1 + u.2.2 * v.2.2

/-- Euclidean norm (`mjs.norm`, an external collaborator modelled exactly). -/
def norm3 (v : Vec3) : ℝ := Real.sqrt (v.1 ^ 2 + v.2.1 ^ 2 + v.2.2 ^ 2)

/-- Componentwise sum (`mjs.add`). -/
def add3 (u v : Vec3) : Vec3 := (u.1 + v.1, u.2.1 + v.2.1, u.2.2 + v.2.2)

/-- Componentwise difference (`mjs.subtract`). -/
def sub3 (u v : Vec3) : Vec3 := (u.1 - v.1, u.2.1 - v.2.1, u.2.2 - v.2.2)

/-- Scalar multiple (`mjs.dotMultiply` with a scalar). -/
def smul3 (c : ℝ) (v : Vec3) : Vec3 := (c * v.1, c * v.2.1, c * v.2.2)

/-- Modelled from the spec: `utils.cross` (utils.js is not in the sources),
the standard 3D cross product used for the orthonormal-basis construction. -/
def cross3 (u v : Vec3) : Vec3 :=
  (u.2.1 * v.2.2 - u.2.2 * v.2.1,
   u.2.2 * v.1 - u.1 * v.2.2,
   u.1 * v.2.1 - u.2.1 * v.1)

/-- Modelled from the spec: `utils.unit` (utils.js is not in the sources),
`unit(v) = v / |v|`. -/
def unit3 (v : Vec3) : Vec3 := smul3 (norm3 v)⁻¹ v

/-- Modelled from the spec: `utils.degToRad` (utils.js is not in the sources). -/
def degToRad (x : ℝ) : ℝ := x * Real.pi / 180

/-- Modelled from the spec: `utils.radToDeg` (utils.js is not in the sources). -/
def radToDeg (x : ℝ) : ℝ := x * 180 / Real.pi

/-- Row vector times matrix, `p · M` (row-vector convention of
`mjs.multiply(p, M)` for a length-3 array `p` and 3×3 matrix `M`). -/
def vecMulMat (p : Vec3) (m : Mat3) : Vec3 :=
  (p.1 * m.1.1 + p.2.1 * m.2.1.1 + p.2.2 * m.2.2.1,
   p.1 * m.1.2.1 + p.2.1 * m.2.1.2.1 + p.2.2 * m.2.2.2.1,
   p.1 * m.1.2.2 + p.2.1 * m.2.1.2.2 + p.2.2 * m.2.2.2.2)

/-- Matrix times column vector, `M · p` (`mjs.multiply(rot, p0)` for a 3×3
rotation and a 3-vector). -/
def matVecMul (m : Mat3) (p : Vec3) : Vec3 :=
  (dot3 m.1 p, dot3 m.2.1 p, dot3 m.2.2 p)

/-- Determinant of a 3×3 matrix (used to model `mjs.inv`). -/
def det3 (m : Mat3) : ℝ :=
  m.1.1 * (m.2.1.2.1 * m.2.2.2.2 - m.2.1.2.2 * m.2.2.2.1)
  - m.1.2.1 * (m.2.1.1 * m.2.2.2.2 - m.2.1.2.2 * m.2.2.1)
  + m.1.2.2 * (m.2.1.1 * m.2.2.2.1 - m.2.1.2.1 * m.2.2.1)

/-- Matrix inverse via the adjugate formula, modelling the external
collaborator `mjs.inv`.  (On a singular matrix the source library throws;
here the formula divides by a zero determinant and yields junk.  No claim
exercises a singular cell.) -/
def inv3 (m : Mat3) : Mat3 :=
  let d := det3 m
  ((  (m.2.1.2.1 * m.2.2.2.2 - m.2.1.2.2 * m.2.2.2.1) / d,
    -((m.1.2.1 * m.2.2.2.2 - m.1.2.2 * m.2.2.2.1)) / d,
      (m.1.2.1 * m.2.1.2.2 - m.1.2.2 * m.2.1.2.1) / d),
   (-((m.2.1.1 * m.2.2.2.2 - m.2.1.2.2 * m.2.2.1)) / d,
      (m.1.1 * m.2.2.2.2 - m.1.2.2 * m.2.2.1) / d,
    -((m.1.1 * m.2.1.2.2 - m.1.2.2 * m.2.1.1)) / d),
   (  (m.2.1.1 * m.2.2.2.1 - m.2.1.2.1 * m.2.2.1) / d,
    -((m.1.1 * m.2.2.2.1 - m.1.2.1 * m.2.2.1)) / d,
      (m.1.1 * m.2.1.2.1 - m.1.2.1 * m.2.1.1) / d))

/-- The identity 3×3 matrix (junk default where the source would crash). -/
def id3 : Mat3 := ((1, 0, 0), (0, 1, 0), (0, 0, 1))

/-- `cellToCellpar` (cryst.js lines 23-42): convert a Cartesian cell into
lengths and angles.  `angle[i] = acos(dot(cell[j], cell[k]) / (l_j l_k))`
for the cyclic pair `j = (i+2) % 3`, `k = (i+1) % 3`, guarded to `π/2` when
the product of lengths is not above `1e-16`; angles in degrees unless
`radians` is set. -/
def cellToCellpar (cell : Mat3) (radians : Bool) : Vec3 × Vec3 :=
  let l0 := norm3 cell.1
  let l1 := norm3 cell.2.1
  let l2 := norm3 cell.2.2
  let ang0 := if 1e-16 < l2 * l1 then Real.arccos (dot3 cell.2.2 cell.2.1 / (l2 * l1))
              else Real.pi / 2
  let ang1 := if 1e-16 < l0 * l2 then Real.arccos (dot3 cell.1 cell.2.2 / (l0 * l2))
              else Real.pi / 2
  let ang2 := if 1e-16 < l1 * l0 then Real.arccos (dot3 cell.2.1 cell.1 / (l1 * l0))
              else Real.pi / 2
  ((l0, l1, l2),
   if radians then (ang0, ang1, ang2) else (radToDeg ang0, radToDeg ang1, radToDeg ang2))

/-- The default `a_direction` of `cellparToCell` (cryst.js lines 57-63):
`[0,0,1]` when `norm(cross(ab_normal, [1,0,0])) < 1e-5`, else `[1,0,0]`. -/
def aDirectionDefault (ab_normal : Vec3) : Vec3 :=
  if norm3 (cross3 ab_normal (1, 0, 0)) < 1e-5 then (0, 0, 1) else (1, 0, 0)

/-- The specification's wording for the same default ("defaults to `[0,0,1]`
if `abNormal` is not parallel to `[1,0,0]` within `1e-5`, else `[1,0,0]`"),
written down verbatim for comparison with the source's `aDirectionDefault`. -/
def aDirectionDefaultSpec (ab_normal : Vec3) : Vec3 :=
  if ¬ (norm3 (cross3 ab_normal (1, 0, 0)) < 1e-5) then (0, 0, 1) else (1, 0, 0)

/-- The sine/cosine pair of an angle after the orthorhombic snap of
cryst.js lines 83-89: when `| |sin a| - 1 | < 1e-14` the pair is replaced
by `(sign (sin a), 0)`.  Returned in the order (sine, cosine). -/
def snapSC (a : ℝ) : ℝ × ℝ :=
  if |(|Real.sin a|) - 1| < 1e-14 then (Real.sign (Real.sin a), 0)
  else (Real.sin a, Real.cos a)

/-- `cellparToCell` (cryst.js lines 53-104): convert lengths and angles to a
Cartesian cell.  Optional `ab_normal` defaults to `[0,0,1]`, optional
`a_direction` to `aDirectionDefault`; angles are taken in degrees unless
`radians` is set; the snapped sines/cosines build `va`, `vb`, `vc`, whose
rows are finally rotated into the `X, Y, Z` orthonormal basis. -/
def cellparToCell (cellpar : Vec3 × Vec3) (ab_normal a_direction : Option Vec3)
    (radians : Bool) : Mat3 :=
  let n := ab_normal.getD (0, 0, 1)
  let adir := match a_direction with
    | some d => d
    | none => aDirectionDefault n
  let ad := unit3 adir
  let Z := unit3 n
  let X := unit3 (sub3 ad (smul3 (dot3 ad Z) Z))
  let Y := cross3 Z X
  let l := cellpar.1
  let angs := if radians then cellpar.2
              else (degToRad cellpar.2.1, degToRad cellpar.2.2.1, degToRad cellpar.2.2.2)
  let sc0 := snapSC angs.1
  let sc1 := snapSC angs.2.1
  let sc2 := snapSC angs.2.2
  let va : Vec3 := (l.1, 0, 0)
  let vb : Vec3 := (l.2.1 * sc2.2, l.2.1 * sc2.1, 0)
  let vc0 := l.2.2 * sc1.2
  let vc1 := l.2.2 * (sc0.2 - sc1.2 * sc2.2) / sc2.1
  let vc2 := Real.sqrt (l.2.2 * l.2.2 - vc0 * vc0 - vc1 * vc1)
  let row := fun (v : Vec3) =>
    add3 (smul3 v.1 X) (add3 (smul3 v.2.1 Y) (smul3 v.2.2 Z))
  (row va, row vb, row (vc0, vc1, vc2))

end

noncomputable section

/-- The cell vectors `va`, `vb`, `vc` of `cellparToCell` before the basis
rotation (cryst.js lines 92-98), for angles already in radians. -/
def cellparVecs (l : Vec3) (alf bet gam : ℝ) : Mat3 :=
  ((l.1, 0, 0),
   (l.2.1 * (snapSC gam).2, l.2.1 * (snapSC gam).1, 0),
   (l.2.2 * (snapSC bet).2,
    l.2.2 * ((snapSC alf).2 - (snapSC bet).2 * (snapSC gam).2) / (snapSC gam).1,
    Real.sqrt (l.2.2 * l.2.2 - l.2.2 * (snapSC bet).2 * (l.2.2 * (snapSC bet).2)
      - l.2.2 * ((snapSC alf).2 - (snapSC bet).2 * (snapSC gam).2) / (snapSC gam).1
        * (l.2.2 * ((snapSC alf).2 - (snapSC bet).2 * (snapSC gam).2) / (snapSC gam).1))))

/-- With both optional direction arguments omitted, the orthonormal basis of
`cellparToCell` is the identity (`X = e1`, `Y = e2`, `Z = e3`), so the result
is exactly `(va, vb, vc)` for the degree-converted angles. -/
theorem cellparToCell_default_deg (l a : Vec3) :
    cellparToCell (l, a) none none false =
      cellparVecs l (degToRad a.1) (degToRad a.2.1) (degToRad a.2.2) := by
  have hcr : cross3 (0, 0, 1) (1, 0, 0) = ((0 : ℝ), (1 : ℝ), (0 : ℝ)) := by
    simp [cross3]
  have hnrm : norm3 ((0 : ℝ), (1 : ℝ), (0 : ℝ)) = 1 := by
    simp [norm3]
  have hdef : aDirectionDefault (0, 0, 1) = (1, 0, 0) := by
    rw [aDirectionDefault, hcr, hnrm]
    norm_num
  have hu1 : unit3 ((1 : ℝ), (0 : ℝ), (0 : ℝ)) = (1, 0, 0) := by
    simp [unit3, norm3, smul3]
  have hu3 : unit3 ((0 : ℝ), (0 : ℝ), (1 : ℝ)) = (0, 0, 1) := by
    simp [unit3, norm3, smul3]
  have h0 : (0 : ℝ) - (0 + 0 + 0) = 0 := by norm_num
  rw [cellparToCell]
  simp only [Option.getD_none]
  rw [hdef, hu3, hu1]
  simp only [dot3, smul3, sub3, mul_zero, mul_one, zero_mul, sub_zero]
  rw [h0, hu1, hcr]
  simp only [cellparVecs, add3, smul3]
  norm_num

end

noncomputable section

/-- The norm of `cross(n, [1,0,0])` measures the components of `n`
orthogonal to the x-axis. -/
theorem norm3_cross_e1 (n : Vec3) :
    norm3 (cross3 n (1, 0, 0)) = Real.sqrt (n.2.1 ^ 2 + n.2.2 ^ 2) := by
  simp only [cross3, norm3, mul_one, mul_zero, zero_sub, zero_mul, sub_zero]
  congr 1
  ring

/-- Claim C5 (counterexample): for `ab_normal = [1,0,0]` — which is exactly
parallel to `[1,0,0]`, so the cross product has norm `0 < 1e-5` — the code's
default `a_direction` is `[0,0,1]`, while the claim's rule ("defaults to
`[0,0,1]` if `ab_normal` is **not** parallel to `[1,0,0]` within `1e-5`, and
to `[1,0,0]` otherwise") yields `[1,0,0]`.  The claim has the two branches of
the parallelism test swapped. -/
theorem C5_counterexample :
    aDirectionDefault (1, 0, 0) = (0, 0, 1) ∧
      aDirectionDefaultSpec (1, 0, 0) = (1, 0, 0) ∧
      aDirectionDefault (1, 0, 0) ≠ aDirectionDefaultSpec (1, 0, 0) := by
  have h : norm3 (cross3 ((1 : ℝ), (0 : ℝ), (0 : ℝ)) (1, 0, 0)) < 1e-5 := by
    rw [norm3_cross_e1]
    norm_num
  refine ⟨?_, ?_, ?_⟩
  · rw [aDirectionDefault, if_pos h]
  · rw [aDirectionDefaultSpec, if_neg (by simpa using h)]
  · rw [aDirectionDefault, if_pos h, aDirectionDefaultSpec, if_neg (by simpa using h)]
    simp [Prod.ext_iff]

/-- Claim C5 (amended): in `cellparToCell`, when the caller does not supply
`a_direction`, it defaults to `[0,0,1]` if `ab_normal` **is** parallel to
`[1,0,0]` within `1e-5` (i.e. the norm of `cross(ab_normal, [1,0,0])`, which
equals `sqrt(n_y² + n_z²)`, is below `1e-5`), and to `[1,0,0]` otherwise. -/
theorem C5_aDirectionDefault_amended (n : Vec3) :
    (Real.sqrt (n.2.1 ^ 2 + n.2.2 ^ 2) < 1e-5 → aDirectionDefault n = (0, 0, 1)) ∧
      (¬ Real.sqrt (n.2.1 ^ 2 + n.2.2 ^ 2) < 1e-5 → aDirectionDefault n = (1, 0, 0)) := by
  constructor
  · intro h
    rw [aDirectionDefault, if_pos (by rw [norm3_cross_e1]; exact h)]
  · intro h
    rw [aDirectionDefault, if_neg (by rw [norm3_cross_e1]; exact h)]

/-- Witness for C5: at the concrete input `ab_normal = [0,0,1]` (not parallel
to the x-axis) the default resolves to `[1,0,0]`. -/
theorem C5_aDirectionDefault_amended_witness :
    ¬ Real.sqrt (((0 : ℝ), (0 : ℝ), (1 : ℝ)).2.1 ^ 2 + ((0 : ℝ), (0 : ℝ), (1 : ℝ)).2.2 ^ 2) < 1e-5 ∧
      aDirectionDefault (0, 0, 1) = (1, 0, 0) := by
  have h : ¬ Real.sqrt (((0 : ℝ), (0 : ℝ), (1 : ℝ)).2.1 ^ 2 + ((0 : ℝ), (0 : ℝ), (1 : ℝ)).2.2 ^ 2) < 1e-5 := by
    norm_num
  exact ⟨h, (C5_aDirectionDefault_amended (0, 0, 1)).2 h⟩

end

noncomputable section

/-- For an angle in `(0, π)` that is either exactly `π/2` or has its sine
outside the `1e-14` snap window, the snap of cryst.js lines 83-89 leaves the
sine/cosine pair unchanged. -/
theorem snapSC_safe {a : ℝ} (h0 : 0 < a) (h1 : a < Real.pi)
    (hs : Real.sin a ≤ 1 - 1e-14 ∨ a = Real.pi / 2) :
    snapSC a = (Real.sin a, Real.cos a) := by
  have hsin : 0 < Real.sin a := Real.sin_pos_of_pos_of_lt_pi h0 h1
  rcases hs with hs | hs
  · rw [snapSC, if_neg]
    rw [abs_of_pos hsin, abs_of_nonpos (by linarith [Real.sin_le_one a])]
    intro h
    linarith [abs_nonneg (Real.sin a)]
  · subst hs
    rw [snapSC, if_pos]
    · rw [Real.sign_of_pos hsin, Real.sin_pi_div_two, Real.cos_pi_div_two]
    · rw [Real.sin_pi_div_two]
      norm_num

end

noncomputable section

/-- Round trip at the radians level: for positive lengths whose pairwise
products clear the `1e-16` degeneracy guard, angles in `(0, π)` outside the
snap window (or exactly `π/2`), and angles satisfying the realizability
condition `1 + 2 cos α cos β cos γ - cos²α - cos²β - cos²γ > 0`,
`cellToCellpar` recovers the `cellparVecs` parameters exactly. -/
theorem cellparVecs_roundtrip (l : Vec3) (al be ga : ℝ)
    (hl0 : 0 < l.1) (hl1 : 0 < l.2.1) (hl2 : 0 < l.2.2)
    (hp21 : 1e-16 < l.2.2 * l.2.1) (hp02 : 1e-16 < l.1 * l.2.2)
    (hp10 : 1e-16 < l.2.1 * l.1)
    (hal : 0 < al) (hal' : al < Real.pi)
    (hbe : 0 < be) (hbe' : be < Real.pi)
    (hga : 0 < ga) (hga' : ga < Real.pi)
    (hsal : Real.sin al ≤ 1 - 1e-14 ∨ al = Real.pi / 2)
    (hsbe : Real.sin be ≤ 1 - 1e-14 ∨ be = Real.pi / 2)
    (hsga : Real.sin ga ≤ 1 - 1e-14 ∨ ga = Real.pi / 2)
    (hG : 0 < 1 + 2 * Real.cos al * Real.cos be * Real.cos ga
            - Real.cos al ^ 2 - Real.cos be ^ 2 - Real.cos ga ^ 2) :
    cellToCellpar (cellparVecs l al be ga) true = (l, (al, be, ga)) := by
  have hsnA := snapSC_safe hal hal' hsal
  have hsnB := snapSC_safe hbe hbe' hsbe
  have hsnG := snapSC_safe hga hga' hsga
  have hsinga : 0 < Real.sin ga := Real.sin_pos_of_pos_of_lt_pi hga hga'
  have hsga0 : Real.sin ga ≠ 0 := ne_of_gt hsinga
  set cA := Real.cos al with hcA
  set cB := Real.cos be with hcB
  set cG := Real.cos ga with hcG
  set sG := Real.sin ga with hsG
  -- the three cell vectors with the snap resolved
  have hM : cellparVecs l al be ga =
      ((l.1, 0, 0),
       (l.2.1 * cG, l.2.1 * sG, 0),
       (l.2.2 * cB, l.2.2 * (cA - cB * cG) / sG,
        Real.sqrt (l.2.2 * l.2.2 - l.2.2 * cB * (l.2.2 * cB)
          - l.2.2 * (cA - cB * cG) / sG * (l.2.2 * (cA - cB * cG) / sG)))) := by
    rw [cellparVecs, hsnA, hsnB, hsnG]
  -- the argument of the square root is positive (realizability)
  have hWeq : l.2.2 * l.2.2 - l.2.2 * cB * (l.2.2 * cB)
      - l.2.2 * (cA - cB * cG) / sG * (l.2.2 * (cA - cB * cG) / sG)
      = l.2.2 ^ 2 * (1 + 2 * cA * cB * cG - cA ^ 2 - cB ^ 2 - cG ^ 2) / sG ^ 2 := by
    have hs2 : sG ^ 2 = 1 - cG ^ 2 := Real.sin_sq ga
    field_simp
    linear_combination (l.2.2 ^ 2 * (1 - cB ^ 2) * sG ^ 2) * hs2
  have hWpos : 0 < l.2.2 * l.2.2 - l.2.2 * cB * (l.2.2 * cB)
      - l.2.2 * (cA - cB * cG) / sG * (l.2.2 * (cA - cB * cG) / sG) := by
    rw [hWeq]
    apply div_pos (mul_pos (by positivity) hG) (by positivity)
  -- recovered lengths
  have hn1 : norm3 ((l.1 : ℝ), (0 : ℝ), (0 : ℝ)) = l.1 := by
    rw [norm3]
    rw [show l.1 ^ 2 + 0 ^ 2 + 0 ^ 2 = l.1 ^ 2 by ring]
    exact Real.sqrt_sq hl0.le
  have hn2 : norm3 (l.2.1 * cG, l.2.1 * sG, 0) = l.2.1 := by
    rw [norm3]
    rw [show (l.2.1 * cG) ^ 2 + (l.2.1 * sG) ^ 2 + (0 : ℝ) ^ 2
        = l.2.1 ^ 2 * (sG ^ 2 + cG ^ 2) by ring]
    rw [hsG, hcG, Real.sin_sq_add_cos_sq, mul_one]
    exact Real.sqrt_sq hl1.le
  have hn3 : norm3 (l.2.2 * cB, l.2.2 * (cA - cB * cG) / sG,
      Real.sqrt (l.2.2 * l.2.2 - l.2.2 * cB * (l.2.2 * cB)
        - l.2.2 * (cA - cB * cG) / sG * (l.2.2 * (cA - cB * cG) / sG))) = l.2.2 := by
    rw [norm3, Real.sq_sqrt hWpos.le]
    rw [show (l.2.2 * cB) ^ 2 + (l.2.2 * (cA - cB * cG) / sG) ^ 2
        + (l.2.2 * l.2.2 - l.2.2 * cB * (l.2.2 * cB)
          - l.2.2 * (cA - cB * cG) / sG * (l.2.2 * (cA - cB * cG) / sG))
        = l.2.2 ^ 2 by ring]
    exact Real.sqrt_sq hl2.le
  -- recovered angles
  have hd0 : dot3 (l.2.2 * cB, l.2.2 * (cA - cB * cG) / sG,
      Real.sqrt (l.2.2 * l.2.2 - l.2.2 * cB * (l.2.2 * cB)
        - l.2.2 * (cA - cB * cG) / sG * (l.2.2 * (cA - cB * cG) / sG)))
      (l.2.1 * cG, l.2.1 * sG, 0) = l.2.2 * l.2.1 * cA := by
    rw [dot3]
    field_simp
    ring
  have hd1 : dot3 ((l.1 : ℝ), (0 : ℝ), (0 : ℝ)) (l.2.2 * cB, l.2.2 * (cA - cB * cG) / sG,
      Real.sqrt (l.2.2 * l.2.2 - l.2.2 * cB * (l.2.2 * cB)
        - l.2.2 * (cA - cB * cG) / sG * (l.2.2 * (cA - cB * cG) / sG)))
      = l.1 * (l.2.2 * cB) := by
    rw [dot3]
    ring
  have hd2 : dot3 (l.2.1 * cG, l.2.1 * sG, 0) ((l.1 : ℝ), (0 : ℝ), (0 : ℝ))
      = l.2.1 * cG * l.1 := by
    rw [dot3]
    ring
  rw [hM, cellToCellpar]
  simp only [hn1, hn2, hn3, hd0, hd1, hd2]
  rw [if_pos hp21, if_pos hp02, if_pos hp10]
  rw [show l.2.2 * l.2.1 * cA / (l.2.2 * l.2.1) = cA by
    field_simp]
  rw [show l.1 * (l.2.2 * cB) / (l.1 * l.2.2) = cB by
    field_simp; ring]
  rw [show l.2.1 * cG * l.1 / (l.2.1 * l.1) = cG by
    field_simp; ring]
  rw [hcA, hcB, hcG]
  rw [Real.arccos_cos hal.le hal'.le, Real.arccos_cos hbe.le hbe'.le,
    Real.arccos_cos hga.le hga'.le]
  simp [Prod.ext_iff]

end

noncomputable section

/-- `radToDeg` inverts `degToRad`. -/
theorem radToDeg_degToRad (x : ℝ) : radToDeg (degToRad x) = x := by
  rw [radToDeg, degToRad]
  field_simp

/-- The degree-mode output of `cellToCellpar` is the radian-mode output with
the three angles converted. -/
theorem cellToCellpar_false_eq (m : Mat3) :
    cellToCellpar m false =
      ((cellToCellpar m true).1,
       (radToDeg (cellToCellpar m true).2.1,
        radToDeg (cellToCellpar m true).2.2.1,
        radToDeg (cellToCellpar m true).2.2.2)) := by
  rw [cellToCellpar, cellToCellpar]
  norm_num

/-- The lengths returned by `cellToCellpar` are the row norms. -/
theorem cellToCellpar_lengths (m : Mat3) (b : Bool) :
    (cellToCellpar m b).1 = (norm3 m.1, norm3 m.2.1, norm3 m.2.2) := by
  rw [cellToCellpar]

/-- Claim C4 (amended): for lengths `> 0` whose pairwise products exceed the
`1e-16` degeneracy guard of `cellToCellpar`, and angles strictly between 0°
and 180° that (a) avoid the `1e-14` sine snap window of `cellparToCell`
unless exactly 90°, and (b) satisfy the realizability condition
`1 + 2 cos α cos β cos γ - cos²α - cos²β - cos²γ > 0`, composing
`cellparToCell` and `cellToCellpar` recovers the same lengths and the same
angles exactly (in the real-number model). -/
theorem C4_roundtrip_amended (l a : Vec3)
    (hl0 : 0 < l.1) (hl1 : 0 < l.2.1) (hl2 : 0 < l.2.2)
    (hp21 : 1e-16 < l.2.2 * l.2.1) (hp02 : 1e-16 < l.1 * l.2.2)
    (hp10 : 1e-16 < l.2.1 * l.1)
    (ha1 : 0 < a.1) (ha1' : a.1 < 180)
    (ha2 : 0 < a.2.1) (ha2' : a.2.1 < 180)
    (ha3 : 0 < a.2.2) (ha3' : a.2.2 < 180)
    (hs1 : Real.sin (degToRad a.1) ≤ 1 - 1e-14 ∨ a.1 = 90)
    (hs2 : Real.sin (degToRad a.2.1) ≤ 1 - 1e-14 ∨ a.2.1 = 90)
    (hs3 : Real.sin (degToRad a.2.2) ≤ 1 - 1e-14 ∨ a.2.2 = 90)
    (hG : 0 < 1 + 2 * Real.cos (degToRad a.1) * Real.cos (degToRad a.2.1)
            * Real.cos (degToRad a.2.2)
            - Real.cos (degToRad a.1) ^ 2 - Real.cos (degToRad a.2.1) ^ 2
            - Real.cos (degToRad a.2.2) ^ 2) :
    cellToCellpar (cellparToCell (l, a) none none false) false = (l, a) := by
  have hπ := Real.pi_pos
  have hb1 : 0 < degToRad a.1 := by
    rw [degToRad]; apply div_pos (mul_pos ha1 hπ); norm_num
  have hb1' : degToRad a.1 < Real.pi := by
    rw [degToRad]; nlinarith
  have hb2 : 0 < degToRad a.2.1 := by
    rw [degToRad]; apply div_pos (mul_pos ha2 hπ); norm_num
  have hb2' : degToRad a.2.1 < Real.pi := by
    rw [degToRad]; nlinarith
  have hb3 : 0 < degToRad a.2.2 := by
    rw [degToRad]; apply div_pos (mul_pos ha3 hπ); norm_num
  have hb3' : degToRad a.2.2 < Real.pi := by
    rw [degToRad]; nlinarith
  have hdeg90 : ∀ x : ℝ, x = 90 → degToRad x = Real.pi / 2 := by
    intro x hx; rw [hx, degToRad]; ring
  have hs1' : Real.sin (degToRad a.1) ≤ 1 - 1e-14 ∨ degToRad a.1 = Real.pi / 2 :=
    hs1.imp id (hdeg90 _)
  have hs2' : Real.sin (degToRad a.2.1) ≤ 1 - 1e-14 ∨ degToRad a.2.1 = Real.pi / 2 :=
    hs2.imp id (hdeg90 _)
  have hs3' : Real.sin (degToRad a.2.2) ≤ 1 - 1e-14 ∨ degToRad a.2.2 = Real.pi / 2 :=
    hs3.imp id (hdeg90 _)
  rw [cellparToCell_default_deg, cellToCellpar_false_eq,
    cellparVecs_roundtrip l _ _ _ hl0 hl1 hl2 hp21 hp02 hp10
      hb1 hb1' hb2 hb2' hb3 hb3' hs1' hs2' hs3' hG]
  simp [radToDeg_degToRad]

/-- Witness for C4 (amended) at lengths `(1,1,1)` and angles `(90°,90°,90°)`:
all hypotheses hold and the round trip is the identity there. -/
theorem C4_roundtrip_amended_witness :
    ((0 : ℝ) < 1 ∧ (0 : ℝ) < 90 ∧ (90 : ℝ) < 180) ∧
      cellToCellpar (cellparToCell (((1, 1, 1) : Vec3), ((90, 90, 90) : Vec3))
          none none false) false
        = (((1, 1, 1) : Vec3), ((90, 90, 90) : Vec3)) := by
  have h90 : degToRad (90 : ℝ) = Real.pi / 2 := by rw [degToRad]; ring
  have hcos : Real.cos (degToRad (90 : ℝ)) = 0 := by rw [h90, Real.cos_pi_div_two]
  refine ⟨⟨by norm_num, by norm_num, by norm_num⟩, ?_⟩
  exact C4_roundtrip_amended (1, 1, 1) (90, 90, 90)
    (by norm_num) (by norm_num) (by norm_num)
    (by norm_num) (by norm_num) (by norm_num)
    (by norm_num) (by norm_num) (by norm_num)
    (by norm_num) (by norm_num) (by norm_num)
    (Or.inr (by norm_num)) (Or.inr (by norm_num)) (Or.inr (by norm_num))
    (by norm_num [hcos])

end

noncomputable section

/-- Claim C4 (counterexample): at lengths `(1,1,1)` and angles
`(60°, 60°, 150°)` — all lengths positive and all angles strictly between 0°
and 180°, as the claim requires — the round trip does **not** recover the
parameters: the angle set is not geometrically realizable
(`1 + 2 cos α cos β cos γ - cos²α - cos²β - cos²γ = -1 - √3 < 0`), the
`sqrt` in `cellparToCell` receives a negative argument, and the recovered
third length is `sqrt(2 + √3) ≠ 1`. -/
theorem C4_counterexample :
    ((0 : ℝ) < 1 ∧ ((0 : ℝ) < 60 ∧ (60 : ℝ) < 180) ∧ ((0 : ℝ) < 150 ∧ (150 : ℝ) < 180)) ∧
      cellToCellpar (cellparToCell (((1, 1, 1) : Vec3), ((60, 60, 150) : Vec3))
          none none false) false
        ≠ (((1, 1, 1) : Vec3), ((60, 60, 150) : Vec3)) := by
  have h3 : Real.sqrt 3 ^ 2 = 3 := Real.sq_sqrt (by norm_num)
  have h3nn : (0 : ℝ) ≤ Real.sqrt 3 := Real.sqrt_nonneg 3
  have h3lt : Real.sqrt 3 < 1.8 := by nlinarith
  have h60 : degToRad (60 : ℝ) = Real.pi / 3 := by rw [degToRad]; ring
  have h150 : degToRad (150 : ℝ) = Real.pi - Real.pi / 6 := by rw [degToRad]; ring
  have hcond60 : ¬ |(|Real.sin (Real.pi / 3)|) - 1| < 1e-14 := by
    rw [Real.sin_pi_div_three]
    rw [abs_of_nonneg (show (0 : ℝ) ≤ Real.sqrt 3 / 2 by positivity)]
    rw [abs_of_nonpos (show Real.sqrt 3 / 2 - 1 ≤ 0 by nlinarith)]
    intro hcon
    nlinarith
  have hsn60 : snapSC (degToRad (60 : ℝ)) = (Real.sqrt 3 / 2, 1 / 2) := by
    rw [h60, snapSC, if_neg hcond60, Real.sin_pi_div_three, Real.cos_pi_div_three]
  have hcond150 : ¬ |(|Real.sin (Real.pi - Real.pi / 6)|) - 1| < 1e-14 := by
    rw [Real.sin_pi_sub, Real.sin_pi_div_six]
    rw [abs_of_nonneg (show (0 : ℝ) ≤ (1 : ℝ) / 2 by norm_num)]
    rw [abs_of_nonpos (show (1 : ℝ) / 2 - 1 ≤ 0 by norm_num)]
    norm_num
  have hsn150 : snapSC (degToRad (150 : ℝ)) = (1 / 2, -(Real.sqrt 3 / 2)) := by
    rw [h150, snapSC, if_neg hcond150, Real.sin_pi_sub, Real.cos_pi_sub,
      Real.sin_pi_div_six, Real.cos_pi_div_six]
  have hq : (1 : ℝ) * (1 / 2 - 1 / 2 * -(Real.sqrt 3 / 2)) / (1 / 2)
      = 1 + Real.sqrt 3 / 2 := by
    rw [div_eq_iff (by norm_num : ((1 : ℝ) / 2) ≠ 0)]
    ring
  have hrow3 : (cellparVecs ((1, 1, 1) : Vec3) (degToRad 60) (degToRad 60)
      (degToRad 150)).2.2 = ((1 : ℝ) * (1 / 2), 1 + Real.sqrt 3 / 2, 0) := by
    rw [cellparVecs, hsn60, hsn150]
    simp only [Prod.mk.injEq]
    refine ⟨trivial, hq, ?_⟩
    rw [hq, Real.sqrt_eq_zero']
    nlinarith
  have hlen3 : norm3 ((1 : ℝ) * (1 / 2), 1 + Real.sqrt 3 / 2, 0)
      = Real.sqrt (2 + Real.sqrt 3) := by
    rw [norm3]
    congr 1
    linear_combination (1 / 4 : ℝ) * h3
  refine ⟨⟨by norm_num, ⟨by norm_num, by norm_num⟩, ⟨by norm_num, by norm_num⟩⟩, ?_⟩
  intro h
  have hproj := congrArg (fun t : Vec3 × Vec3 => t.1.2.2) h
  simp only [cellparToCell_default_deg, cellToCellpar_lengths] at hproj
  rw [hrow3, hlen3] at hproj
  nlinarith [Real.sq_sqrt (show (0 : ℝ) ≤ 2 + Real.sqrt 3 by positivity),
    Real.sqrt_nonneg (2 + Real.sqrt 3)]

end

noncomputable section

/-- Modelled from the spec: `utils.mod1` (utils.js is not in the sources),
the componentwise reduction of fractional coordinates into `[0, 1)`
("reduced into `[0,1)` per component"), i.e. the fractional part. -/
def mod1 (v : Vec3) : Vec3 := (Int.fract v.1, Int.fract v.2.1, Int.fract v.2.2)

/-- One-dimensional minimal-image magnitude: the distance from `x` to the
nearest of its three periodic images `x-1`, `x`, `x+1` (for arguments already
reduced into `(-1, 1)` this is the exact minimal-image magnitude). -/
def pimg (x : ℝ) : ℝ := min |x| (min |x - 1| |x + 1|)

/-- Modelled from the spec: `utils.shortestPeriodicLength` (utils.js is not
in the sources) — "magnitude via the shortest periodic length": the Euclidean
length of the componentwise minimal-image reduction of a fractional
displacement. -/
def shortestPeriodicLength (v : Vec3) : ℝ :=
  Real.sqrt (pimg v.1 ^ 2 + pimg v.2.1 ^ 2 + pimg v.2.2 ^ 2)

/-- The periodic minimal-image distance used by the symmetry-expansion loop
of `readCif` (cryst.js lines 504-505): `shortestPeriodicLength(mod1(p - q))`. -/
def perDist (p q : Vec3) : ℝ := shortestPeriodicLength (mod1 (sub3 p q))

/-- A symmetry operation: a rotation matrix and a translation vector. -/
abbrev SymOp : Type := Mat3 × Vec3

/-- One step of the symmetry-orbit accumulation of `readCif` (cryst.js lines
496-514): apply one operator to the original site position `p0`, wrap into
`[0,1)`, and append to the accepted list unless it is within `symtol` of an
already-accepted position. -/
def expandStep (symtol : ℝ) (p0 : Vec3) (allp : List Vec3) (op : SymOp) : List Vec3 :=
  let p := mod1 (add3 (matVecMul op.1 p0) op.2)
  if ∃ q ∈ allp, perDist p q < symtol then allp else allp ++ [p]

/-- The per-site symmetry expansion of `readCif` (cryst.js lines 493-514):
starting from the accepted list `[p0]`, process the operators in input
order. -/
def expandSite (symops : List SymOp) (symtol : ℝ) (p0 : Vec3) : List Vec3 :=
  symops.foldl (expandStep symtol p0) [p0]

/-- The one-dimensional minimal-image magnitude is invariant under the
wrap-of-negation: `pimg (fract (-d)) = pimg (fract d)`. -/
theorem pimg_fract_neg (d : ℝ) : pimg (Int.fract (-d)) = pimg (Int.fract d) := by
  by_cases h : Int.fract d = 0
  · rw [Int.fract_neg_eq_zero.2 h, h]
  · rw [Int.fract_neg h]
    have h0 : 0 < Int.fract d := lt_of_le_of_ne (Int.fract_nonneg d) (Ne.symm h)
    have h1 : Int.fract d < 1 := Int.fract_lt_one d
    rw [pimg, pimg]
    rw [abs_of_nonneg (by linarith : (0 : ℝ) ≤ 1 - Int.fract d),
      abs_of_nonpos (by linarith : 1 - Int.fract d - 1 ≤ 0),
      abs_of_nonneg (by linarith : (0 : ℝ) ≤ 1 - Int.fract d + 1),
      abs_of_nonneg h0.le,
      abs_of_nonpos (by linarith : Int.fract d - 1 ≤ 0),
      abs_of_nonneg (by linarith : (0 : ℝ) ≤ Int.fract d + 1)]
    rw [show -(1 - Int.fract d - 1) = Int.fract d by ring,
      show -(Int.fract d - 1) = 1 - Int.fract d by ring]
    rw [min_eq_left (by linarith : Int.fract d ≤ 1 - Int.fract d + 1),
      min_eq_left (by linarith : 1 - Int.fract d ≤ Int.fract d + 1)]
    exact min_comm _ _

/-- The periodic minimal-image distance of the expansion loop is symmetric. -/
theorem perDist_comm (p q : Vec3) : perDist p q = perDist q p := by
  rw [perDist, perDist, shortestPeriodicLength, shortestPeriodicLength]
  rw [mod1, mod1, sub3, sub3]
  rw [show q.1 - p.1 = -(p.1 - q.1) by ring,
    show q.2.1 - p.2.1 = -(p.2.1 - q.2.1) by ring,
    show q.2.2 - p.2.2 = -(p.2.2 - q.2.2) by ring]
  rw [pimg_fract_neg, pimg_fract_neg, pimg_fract_neg]

/-- The accumulation step preserves pairwise `symtol`-separation. -/
theorem expandStep_pairwise (symtol : ℝ) (p0 : Vec3) (allp : List Vec3) (op : SymOp)
    (h : allp.Pairwise (fun a b => symtol ≤ perDist a b)) :
    (expandStep symtol p0 allp op).Pairwise (fun a b => symtol ≤ perDist a b) := by
  rw [expandStep]
  split
  · exact h
  · next hno =>
    rw [List.pairwise_append]
    refine ⟨h, List.pairwise_singleton _ _, ?_⟩
    intro a ha b hb
    rw [List.mem_singleton] at hb
    subst hb
    push_neg at hno
    rw [perDist_comm]
    exact hno a ha

/-- Folding any operator list over a pairwise-separated accumulator keeps it
pairwise separated. -/
theorem expandSite_foldl_pairwise (symtol : ℝ) (p0 : Vec3) (ops : List SymOp) :
    ∀ allp : List Vec3, allp.Pairwise (fun a b => symtol ≤ perDist a b) →
      (ops.foldl (expandStep symtol p0) allp).Pairwise
        (fun a b => symtol ≤ perDist a b) := by
  induction ops with
  | nil => intro allp h; exact h
  | cons op rest ih =>
    intro allp h
    exact ih _ (expandStep_pairwise symtol p0 allp op h)

/-- Claim C1: after the symmetry expansion of `readCif` with tolerance
`symtol`, no two accepted fractional positions originating from the same
input site lie closer than `symtol` under the periodic minimal-image metric:
every candidate `wrap01(rotation·p0 + translation)` is appended only when its
minimal-image distance to each already-accepted position of the site is at
least `symtol`, so the accepted list is pairwise separated by `symtol`. -/
theorem C1_expansion_pairwise_separated (symops : List SymOp) (symtol : ℝ) (p0 : Vec3) :
    (expandSite symops symtol p0).Pairwise (fun a b => symtol ≤ perDist a b) := by
  rw [expandSite]
  exact expandSite_foldl_pairwise symtol p0 symops [p0] (List.pairwise_singleton _ _)

end

section

/-- A typed scalar produced by a leaf's `get_value()`: the external tokenizer
yields numbers for numeric tags and strings otherwise. -/
inductive RVal
  | num (x : ℝ)
  | str (s : String)

/-- A leaf of a parsed CIF block: the raw source `text` and the typed
`get_value()` result. -/
structure LeafVal where
  text : String
  value : RVal

/-- The `type` field of a parsed tag entry. -/
inductive TagType
  | single
  | loop
deriving DecidableEq

/-- A parsed CIF tag entry: `single` holds one leaf in `value`, `loop` holds
a list of leaves. -/
inductive TagEntry
  | single (l : LeafVal)
  | loop (ls : List LeafVal)

/-- The `type` of an entry. -/
def tagType : TagEntry → TagType
  | .single _ => .single
  | .loop _ => .loop

/-- The leaves of an entry: a single value is lifted to a one-element list
(as in `_extract_tags`, cryst.js lines 307-311). -/
def entryList : TagEntry → List LeafVal
  | .single l => [l]
  | .loop ls => ls

/-- A parsed CIF data block: a mapping from tag name to entry (supplied whole
by the external tokenizer; modelled as an association list). -/
abbrev Block : Type := List (String × TagEntry)

/-- Tag lookup in a block (JS property access `cblock[tag]`). -/
def lookupTag (cblock : Block) (tag : String) : Option TagEntry :=
  cblock.lookup tag

/-- `_extract_tags` (cryst.js lines 286-315): returns `none` when the first
(anchor) tag is absent; otherwise each requested tag becomes `none` when
absent, of different type than the anchor, or a loop of different length,
and otherwise its list of leaves (singles lifted to one-element lists). -/
def _extract_tags (cblock : Block) (tags : List String) :
    Option (List (Option (List LeafVal))) :=
  let ext := tags.map (fun t => lookupTag cblock t)
  match ext.head? with
  | none => none
  | some none => none
  | some (some e0) =>
    some (ext.map (fun x =>
      match x with
      | none => none
      | some e =>
        if tagType e ≠ tagType e0 then none
        else if tagType e0 = TagType.loop ∧ (entryList e).length ≠ (entryList e0).length
          then none
        else some (entryList e)))

/-- One extracted atom site (`_atom_sites` rows): each field is present
exactly when its tag survived `_extract_tags` and has an `i`-th leaf. -/
structure Site where
  label : Option RVal
  type_symbol : Option RVal
  Cartn_x : Option RVal
  Cartn_y : Option RVal
  Cartn_z : Option RVal
  fract_x : Option RVal
  fract_y : Option RVal
  fract_z : Option RVal

/-- The eight atom-site tags of `_atom_sites` (cryst.js lines 344-352). -/
def asiteTags : List String :=
  ["_atom_site_label", "_atom_site_type_symbol",
   "_atom_site_Cartn_x", "_atom_site_Cartn_y", "_atom_site_Cartn_z",
   "_atom_site_fract_x", "_atom_site_fract_y", "_atom_site_fract_z"]

/-- The `i`-th `get_value()` of the `j`-th extracted tag, when present
(JS `sitevals[j][i].get_value()`, with absent values modelled as `none`). -/
def fieldAt (vals : List (Option (List LeafVal))) (j i : ℕ) : Option RVal :=
  ((vals.get? j).join).bind (fun ls => (ls.get? i).map LeafVal.value)

/-- `_atom_sites` (cryst.js lines 342-368): extract the labelled sites of a
block; `none` when the anchor tag `_atom_site_label` is absent. -/
def _atom_sites (cblock : Block) : Option (List Site) :=
  match _extract_tags cblock asiteTags with
  | none => none
  | some sitevals =>
    let n := (((sitevals.get? 0).join).map List.length).getD 0
    some ((List.range n).map (fun i =>
      { label := fieldAt sitevals 0 i
        type_symbol := fieldAt sitevals 1 i
        Cartn_x := fieldAt sitevals 2 i
        Cartn_y := fieldAt sitevals 3 i
        Cartn_z := fieldAt sitevals 4 i
        fract_x := fieldAt sitevals 5 i
        fract_y := fieldAt sitevals 6 i
        fract_z := fieldAt sitevals 7 i }))

end

noncomputable section

/-- The numeric reading of a `get_value()` result.  (For a string value the
source would propagate the string into arithmetic and produce `NaN`; the
external tokenizer delivers numbers for the numeric tags, and no claim
exercises a string here, so the string case carries a junk `0`.) -/
def rvalNum : RVal → ℝ
  | .num x => x
  | .str _ => 0

/-- The `val.value.get_value()` read of a cell-parameter tag (cryst.js line
389).  (For a loop-typed entry the source crashes with a TypeError; the
tokenizer yields single-typed entries for cell tags, so that case carries a
junk `0`.) -/
def getCellVal : TagEntry → ℝ
  | .single l => rvalNum l.value
  | .loop _ => 0

/-- `_cellpars` (cryst.js lines 370-398): the six cell tags, `none` when any
is absent or any of the three lengths equals exactly zero. -/
def _cellpars (cblock : Block) : Option (Vec3 × Vec3) := do
  let ea ← lookupTag cblock "_cell_length_a"
  let eb ← lookupTag cblock "_cell_length_b"
  let ec ← lookupTag cblock "_cell_length_c"
  let eal ← lookupTag cblock "_cell_angle_alpha"
  let ebe ← lookupTag cblock "_cell_angle_beta"
  let ega ← lookupTag cblock "_cell_angle_gamma"
  if getCellVal ea = 0 ∨ getCellVal eb = 0 ∨ getCellVal ec = 0 then none
  else
    some ((getCellVal ea, getCellVal eb, getCellVal ec),
      (getCellVal eal, getCellVal ebe, getCellVal ega))

/-- An atomic species from the external element table (`mendeleev`). -/
structure Species where
  symbol : String
  number : ℤ

/-- The external collaborators consumed by the core: the element table and
the symmetry-operator library. -/
structure Collab where
  getElement : String → Option Species
  getAtomic : ℝ → Option Species
  parseSymOp : String → SymOp
  interpretHallSymbol : TagEntry → List SymOp

/-- `_symops` (cryst.js lines 400-428): prefer an explicit operator loop
(either tag name), returning `none` when it is single-typed or has exactly
one entry (identity only), otherwise parsing every entry but the first;
fall back to a Hall symbol (either legacy tag name) when no explicit list
is present. -/
def _symops (c : Collab) (cblock : Block) : Option (List SymOp) :=
  match (lookupTag cblock "_space_group_symop_operation_xyz").orElse
      (fun _ => lookupTag cblock "_symmetry_equiv_pos_as_xyz") with
  | some e =>
    match e with
    | .single _ => none
    | .loop ls =>
      if ls.length = 1 then none
      else some ((ls.drop 1).map (fun l => c.parseSymOp l.text))
  | none =>
    match (lookupTag cblock "_space_group_name_Hall").orElse
        (fun _ => lookupTag cblock "_symmetry_space_group_name_Hall") with
    | some e => some (c.interpretHallSymbol e)
    | none => none

end

noncomputable section

/-- A JS element argument: a number, a string, or `undefined` (a site whose
`_atom_site_type_symbol` tag is absent). -/
inductive JElem
  | undef
  | num (x : ℝ)
  | str (s : String)

/-- One entry of a cell argument array: JS `null`/`false`, a number, or an
array of numbers. -/
inductive CellItem
  | null
  | num (x : ℝ)
  | vec (v : List ℝ)

/-- The dynamic cell argument of the `Atoms` constructor: absent/falsy, a
single number (cubic), or an array of items (axis lengths, Cartesian rows,
partial periodicity, or the 2×3 lengths-plus-angles form). -/
inductive CellArg
  | none
  | num (x : ℝ)
  | arr (items : List CellItem)

/-- The typed failures of the core (the source throws `Error` with a message;
the spec's names are used here). -/
inductive AErr
  | unknownSpecies
  | invalidCell
  | invalidPositions
  | nonPeriodicScaled
  | missingCoords
  | invalidArraySize
deriving DecidableEq

/-- Species resolution of the `Atoms` constructor (cryst.js lines 137-158):
numbers go through `getAtomic`, strings through `getElement`; an unresolved
entry is fatal unless it is a non-number and `tolerant` is set, in which case
the symbol is kept verbatim with sentinel number `-1`.  (`getElement` on the
JS `undefined` value yields no species.) -/
def resolveSpecies (c : Collab) (tolerant : Bool) (el : JElem) : Option (JElem × ℤ) :=
  match el with
  | .num n =>
    match c.getAtomic n with
    | some a => some (.str a.symbol, a.number)
    | Option.none => Option.none
  | .str s =>
    match c.getElement s with
    | some a => some (.str a.symbol, a.number)
    | Option.none => if tolerant then some (.str s, -1) else Option.none
  | .undef => if tolerant then some (.undef, -1) else Option.none

/-- First three entries of a JS length-3 array as a `Vec3` (only used behind
length-3 checks). -/
def v3OfList (v : List ℝ) : Vec3 :=
  ((v.get? 0).getD 0, (v.get? 1).getD 0, (v.get? 2).getD 0)

/-- The diagonal row placed by a numeric cell entry: `row[i] = x`
(cryst.js lines 190-193). -/
def axisRow (i : ℕ) (x : ℝ) : Vec3 :=
  (if i = 0 then x else 0, if i = 1 then x else 0, if i = 2 then x else 0)

/-- One row of a length-3 cell array (cryst.js lines 186-198): a falsy entry
(null or the number 0) becomes an aperiodic `none` row, a number an axis row,
and a length-3 array a Cartesian row; any other shape is an invalid cell. -/
def resolveCellRow (i : ℕ) : CellItem → Except AErr (Option Vec3)
  | CellItem.null => .ok Option.none
  | CellItem.num x => if x = 0 then .ok Option.none else .ok (some (axisRow i x))
  | CellItem.vec v => if v.length ≠ 3 then .error .invalidCell else .ok (some (v3OfList v))

/-- Row-by-row resolution of a cell array (cryst.js lines 182-199): a
length other than 3 is an invalid cell, otherwise the rows resolve in order.
(A `null` entry in a length-2 array makes the source crash on `null.length`;
here it is reported as an invalid cell.) -/
def resolveCellRows (items : List CellItem) : Except AErr (List (Option Vec3)) :=
  match items with
  | [i0, i1, i2] => do
    let r0 ← resolveCellRow 0 i0
    let r1 ← resolveCellRow 1 i1
    let r2 ← resolveCellRow 2 i2
    .ok [r0, r1, r2]
  | _ => .error .invalidCell

/-- Cell-argument resolution of the `Atoms` constructor (cryst.js lines
167-200): falsy (absent or the number 0) means aperiodic; a number means a
cubic cell; a 2×3 array is lengths+angles realized through `cellparToCell`;
a length-3 array resolves row by row; anything else is an invalid cell. -/
def resolveCell : CellArg → Except AErr (Option (List (Option Vec3)))
  | .none => .ok Option.none
  | .num a =>
    if a = 0 then .ok Option.none
    else .ok (some [some (a, 0, 0), some (0, a, 0), some (0, 0, a)])
  | .arr items =>
    match items with
    | [CellItem.vec u, CellItem.vec v] =>
      if u.length = 3 ∧ v.length = 3 then
        let m := cellparToCell (v3OfList u, v3OfList v) Option.none Option.none false
        .ok (some [some m.1, some m.2.1, some m.2.2])
      else resolveCellRows [CellItem.vec u, CellItem.vec v]
    | _ => resolveCellRows items

/-- The 3×3 matrix of a fully periodic resolved cell (only used when every
row is present). -/
def rowsToMat (rs : List (Option Vec3)) : Mat3 :=
  (((rs.get? 0).join).getD (0, 0, 0),
   ((rs.get? 1).join).getD (0, 0, 0),
   ((rs.get? 2).join).getD (0, 0, 0))

/-- The structure model built by the `Atoms` constructor: atom count,
per-atom arrays, resolved cell rows (with `none` rows for aperiodic axes),
inverse cell (defined only under full periodicity), per-axis periodicity
flags, and the auxiliary `labels` array attached by `readCif`. -/
structure AtomsModel where
  N : ℕ
  symbols : List JElem
  numbers : List ℤ
  positions : List Vec3
  cell : Option (List (Option Vec3))
  inv_cell : Option Mat3
  pbc : List Bool
  labels : Option (List (Option RVal))

/-- The species loop of the `Atoms` constructor (cryst.js lines 135-158),
failing on the first unresolved element. -/
def resolveAll (c : Collab) (tolerant : Bool) : List JElem → Option (List (JElem × ℤ))
  | [] => some []
  | el :: rest =>
    match resolveSpecies c tolerant el, resolveAll c tolerant rest with
    | some r, some rs => some (r :: rs)
    | _, _ => Option.none

/-- The `Atoms` constructor (cryst.js lines 132-226): resolve every species
(fatal on failure per `resolveSpecies`), resolve the cell argument, compute
the inverse cell when all three axes are periodic, check the positions
length, and convert scaled positions through the cell (fatal without full
periodicity). -/
def mkAtoms (c : Collab) (elems : List JElem) (positions : List Vec3)
    (cell : CellArg) (scaled tolerant : Bool) : Except AErr AtomsModel := do
  match resolveAll c tolerant elems with
  | Option.none => .error .unknownSpecies
  | some resolved => do
    let cellRows ← resolveCell cell
    let pbc := match cellRows with
      | some rs => rs.map Option.isSome
      | Option.none => [false, false, false]
    let inv_cell := match cellRows with
      | some rs => if rs.all Option.isSome then some (inv3 (rowsToMat rs)) else Option.none
      | Option.none => Option.none
    if positions.length ≠ resolved.length then .error .invalidPositions
    else do
      let finalPos ←
        if scaled then
          match inv_cell with
          | Option.none => .error .nonPeriodicScaled
          | some _ => .ok (positions.map (fun p => vecMulMat p (rowsToMat (cellRows.getD []))))
        else .ok positions
      .ok { N := resolved.length, symbols := resolved.map Prod.fst,
            numbers := resolved.map Prod.snd, positions := finalPos,
            cell := cellRows, inv_cell := inv_cell, pbc := pbc,
            labels := Option.none }

/-- `get_scaled_positions` (cryst.js lines 262-275): per atom the explicit
row-by-column sums `sp[j] = p[0]·ic[0][j] + p[1]·ic[1][j] + p[2]·ic[2][j]`
against the inverse cell.  (On a model without an inverse cell the source
crashes on `null[0][0]`; that case returns the empty list here and is not
exercised by any claim.) -/
def AtomsModel.get_scaled_positions (a : AtomsModel) : List Vec3 :=
  match a.inv_cell with
  | some ic => a.positions.map (fun p =>
      (p.1 * ic.1.1 + p.2.1 * ic.2.1.1 + p.2.2 * ic.2.2.1,
       p.1 * ic.1.2.1 + p.2.1 * ic.2.1.2.1 + p.2.2 * ic.2.2.2.1,
       p.1 * ic.1.2.2 + p.2.1 * ic.2.1.2.2 + p.2.2 * ic.2.2.2.2))
  | Option.none => []

end

noncomputable section

/-- The numeric reading of an optional `get_value()` result (a missing
coordinate would propagate as `NaN` in the source; modelled as a junk `0`
and never exercised by a claim). -/
def optNum (o : Option RVal) : ℝ := (o.map rvalNum).getD 0

/-- Per-site position resolution of `readCif` (cryst.js lines 468-481): the
explicit Cartesian triple when all three components are present; otherwise
the fractional triple converted through the cell when the block is periodic;
otherwise a fatal missing-coordinates error. -/
def resolveSitePos (s : Site) (pbc : Bool) (cell : Mat3) : Except AErr Vec3 :=
  match s.Cartn_x, s.Cartn_y, s.Cartn_z with
  | some cx, some cy, some cz => .ok (rvalNum cx, rvalNum cy, rvalNum cz)
  | _, _, _ =>
    if pbc then
      .ok (vecMulMat (optNum s.fract_x, optNum s.fract_y, optNum s.fract_z) cell)
    else .error .missingCoords

/-- The `type_symbol` pushed by `readCif` (cryst.js line 469): the raw
`get_value()` result, or the JS `undefined` when the tag is absent. -/
def rvalToJElem : Option RVal → JElem
  | Option.none => .undef
  | some (.num x) => .num x
  | some (.str s) => .str s

/-- A row of a `Mat3` as a JS length-3 array. -/
def v3l (v : Vec3) : List ℝ := [v.1, v.2.1, v.2.2]

/-- The cell value handed by `readCif` to the `Atoms` constructor: the JS
variable `cell` is either still `undefined` or a 3×3 array of numbers. -/
def cellArgOfState : Option Mat3 → CellArg
  | Option.none => CellArg.none
  | some m => CellArg.arr [CellItem.vec (v3l m.1), CellItem.vec (v3l m.2.1),
      CellItem.vec (v3l m.2.2)]

/-- The site loop of `readCif` (cryst.js lines 468-482), failing on the
first site without usable coordinates. -/
def resolvePositions (pbc : Bool) (cell : Mat3) : List Site → Except AErr (List Vec3)
  | [] => .ok []
  | s :: rest => do
    let p ← resolveSitePos s pbc cell
    let ps ← resolvePositions pbc cell rest
    pure (p :: ps)

/-- Processing of one selected data block by `readCif` (cryst.js lines
451-531).  `cellSt` is the value of the function-scoped JS variable `cell`
when the block is reached: the source declares `var cell` inside the
conditional at lines 460-462, so when the current block has no cell
parameters the variable retains the value left by an earlier block, and that
stale value is what the `Atoms` constructor receives at line 527.
(`_atom_types` is computed at line 454 and never used; it is omitted.) -/
def readCifStep (c : Collab) (symtol : ℝ) (cellSt : Option Mat3) (cblock : Block) :
    Except AErr (Option Mat3 × AtomsModel) := do
  let asites := (_atom_sites cblock).getD []
  let cellpars := _cellpars cblock
  let pbc := cellpars.isSome
  let cellSt' := match cellpars with
    | some cp => some (cellparToCell cp Option.none Option.none false)
    | Option.none => cellSt
  let positions ← resolvePositions pbc (cellSt'.getD id3) asites
  let symbols := asites.map (fun s => rvalToJElem s.type_symbol)
  let labels := asites.map Site.label
  let expanded :=
    if pbc then
      match _symops c cblock with
      | some ops =>
        let m := cellSt'.getD id3
        let fpos := positions.map (fun p => vecMulMat p (inv3 m))
        let trip := (fpos.zip (symbols.zip labels)).flatMap
          (fun pr => (expandSite ops symtol pr.1).map (fun p => (p, pr.2.1, pr.2.2)))
        (trip.map (fun t => vecMulMat t.1 m), trip.map (fun t => t.2.1),
         trip.map (fun t => t.2.2))
      | Option.none => (positions, symbols, labels)
    else (positions, symbols, labels)
  let a ← mkAtoms c expanded.2.1 expanded.1 (cellArgOfState cellSt') false false
  if expanded.2.2.length = a.N then
    .ok (cellSt', { a with labels := some expanded.2.2 })
  else .error .invalidArraySize

/-- The block loop of `readCif`, threading the function-scoped `cell`
variable left to right. -/
def readCifGo (c : Collab) (symtol : ℝ) :
    Option Mat3 → List (String × Block) → Except AErr (List (String × AtomsModel))
  | _, [] => .ok []
  | st, nb :: rest => do
    let r ← readCifStep c symtol st nb.2
    let others ← readCifGo c symtol r.1 rest
    pure ((nb.1, r.2) :: others)

/-- `readCif` over an already-parsed document (cryst.js lines 438-534; the
text-to-document step `parseCif` is the external tokenizer): select the
blocks holding an `_atom_site_label` tag, in document order, and process
them left to right. -/
def readCif (c : Collab) (doc : List (String × Block)) (symtol : ℝ) :
    Except AErr (List (String × AtomsModel)) :=
  readCifGo c symtol Option.none
    (doc.filter (fun nb => (lookupTag nb.2 "_atom_site_label").isSome))

end

noncomputable section

/-- An element-table collaborator with no entries, used as a concrete
witness input. -/
def emptyTable : Collab where
  getElement := fun _ => Option.none
  getAtomic := fun _ => Option.none
  parseSymOp := fun _ => (id3, (0, 0, 0))
  interpretHallSymbol := fun _ => []

/-- Claim C7: constructing an `Atoms` model with an element symbol that does
not resolve in the periodic table fails with the unknown-species error when
`tolerant` is false; when `tolerant` is true, construction succeeds, the
stored atomic number is `-1`, and the symbol is stored verbatim. -/
theorem C7_unknown_species_tolerance (c : Collab) (s : String) (p : Vec3)
    (h : c.getElement s = none) :
    mkAtoms c [.str s] [p] .none false false = .error .unknownSpecies ∧
      mkAtoms c [.str s] [p] .none false true =
        .ok ⟨1, [.str s], [-1], [p], Option.none, Option.none,
          [false, false, false], Option.none⟩ := by
  constructor
  · simp [mkAtoms, resolveAll, resolveSpecies, h]
  · simp [mkAtoms, resolveAll, resolveSpecies, h, resolveCell]
    rfl

/-- Witness for C7 at the concrete symbol `"Zz"` against an empty element
table. -/
theorem C7_unknown_species_tolerance_witness :
    emptyTable.getElement "Zz" = none ∧
      mkAtoms emptyTable [.str "Zz"] [(0, 0, 0)] .none false false
        = .error .unknownSpecies ∧
      mkAtoms emptyTable [.str "Zz"] [(0, 0, 0)] .none false true =
        .ok ⟨1, [.str "Zz"], [-1], [(0, 0, 0)], Option.none, Option.none,
          [false, false, false], Option.none⟩ :=
  ⟨rfl, (C7_unknown_species_tolerance emptyTable "Zz" (0, 0, 0) rfl).1,
    (C7_unknown_species_tolerance emptyTable "Zz" (0, 0, 0) rfl).2⟩

/-- Claim C10: the tolerant fallback applies only to non-numeric element
arguments: an element given as a number that does not resolve via the
periodic table makes construction fail even when `tolerant` is true — the
`-1` fallback is never taken for numeric inputs. -/
theorem C10_numeric_no_tolerant_fallback (c : Collab) (n : ℝ) (p : Vec3)
    (h : c.getAtomic n = none) (tolerant : Bool) :
    mkAtoms c [.num n] [p] .none false tolerant = .error .unknownSpecies := by
  simp [mkAtoms, resolveAll, resolveSpecies, h]

/-- Witness for C10 at the concrete numeric element `999` (absent from the
empty table) with `tolerant = true`. -/
theorem C10_numeric_no_tolerant_fallback_witness :
    emptyTable.getAtomic 999 = none ∧
      mkAtoms emptyTable [.num 999] [(0, 0, 0)] .none false true
        = .error .unknownSpecies :=
  ⟨rfl, C10_numeric_no_tolerant_fallback emptyTable 999 (0, 0, 0) rfl true⟩

end

noncomputable section

/-- Claim C9: for every atom site of a `readCif` block, the explicit
Cartesian triple is used when all three components are present; when any
Cartesian component is absent and the block is periodic, the fractional
coordinates converted through the cell (row vector times cell matrix) are
used instead; and when any Cartesian component is absent and the block is
aperiodic, a missing-coordinates error is raised (in particular when neither
form is available). -/
theorem C9_site_coordinates (s : Site) (pbc : Bool) (cell : Mat3) :
    (∀ cx cy cz, s.Cartn_x = some cx → s.Cartn_y = some cy → s.Cartn_z = some cz →
      resolveSitePos s pbc cell = .ok (rvalNum cx, rvalNum cy, rvalNum cz)) ∧
    ((s.Cartn_x = none ∨ s.Cartn_y = none ∨ s.Cartn_z = none) →
      ∀ fx fy fz, s.fract_x = some fx → s.fract_y = some fy → s.fract_z = some fz →
        pbc = true →
        resolveSitePos s pbc cell
          = .ok (vecMulMat (rvalNum fx, rvalNum fy, rvalNum fz) cell)) ∧
    ((s.Cartn_x = none ∨ s.Cartn_y = none ∨ s.Cartn_z = none) → pbc = false →
      resolveSitePos s pbc cell = .error .missingCoords) := by
  refine ⟨?_, ?_, ?_⟩
  · intro cx cy cz h1 h2 h3
    simp [resolveSitePos, h1, h2, h3]
  · intro hmiss fx fy fz hfx hfy hfz hpbc
    subst hpbc
    rcases hmiss with h | h | h <;>
      cases hx : s.Cartn_x <;> cases hy : s.Cartn_y <;> cases hz : s.Cartn_z <;>
        simp_all [resolveSitePos, optNum]
  · intro hmiss hpbc
    subst hpbc
    rcases hmiss with h | h | h <;>
      cases hx : s.Cartn_x <;> cases hy : s.Cartn_y <;> cases hz : s.Cartn_z <;>
        simp_all [resolveSitePos]

/-- Witness for C9 at concrete sites: a site with Cartesian coordinates
`(1,2,3)` (used as-is, even for an aperiodic block), a fractional-only site
in a periodic block with the identity cell (converted through the cell), and
the same fractional-only site in an aperiodic block (missing-coordinates
error). -/
theorem C9_site_coordinates_witness :
    resolveSitePos ⟨some (.str "C1"), Option.none, some (.num 1), some (.num 2),
        some (.num 3), Option.none, Option.none, Option.none⟩ false id3
      = .ok (1, 2, 3) ∧
    resolveSitePos ⟨some (.str "C1"), Option.none, Option.none, Option.none,
        Option.none, some (.num 1), some (.num 0), some (.num 0)⟩ true id3
      = .ok (1, 0, 0) ∧
    resolveSitePos ⟨some (.str "C1"), Option.none, Option.none, Option.none,
        Option.none, some (.num 1), some (.num 0), some (.num 0)⟩ false id3
      = .error .missingCoords := by
  refine ⟨?_, ?_, ?_⟩
  · have h := (C9_site_coordinates ⟨some (.str "C1"), Option.none, some (.num 1),
      some (.num 2), some (.num 3), Option.none, Option.none, Option.none⟩ false id3).1
      (.num 1) (.num 2) (.num 3) rfl rfl rfl
    rw [h]
    norm_num [rvalNum]
  · have h := (C9_site_coordinates ⟨some (.str "C1"), Option.none, Option.none,
      Option.none, Option.none, some (.num 1), some (.num 0), some (.num 0)⟩ true id3).2.1
      (Or.inl rfl) (.num 1) (.num 0) (.num 0) rfl rfl rfl rfl
    rw [h]
    norm_num [vecMulMat, id3, rvalNum]
  · exact (C9_site_coordinates ⟨some (.str "C1"), Option.none, Option.none,
      Option.none, Option.none, some (.num 1), some (.num 0), some (.num 0)⟩ false id3).2.2
      (Or.inl rfl) rfl

end

section

/-- Evaluation helper: binding a successful `Except`. -/
theorem exceptOkBind {ε : Type u} {α β : Type v} (x : α) (f : α → Except ε β) :
    (Except.ok x : Except ε α) >>= f = f x := rfl

/-- Evaluation helper: binding a failed `Except`. -/
theorem exceptErrBind {ε : Type u} {α β : Type v} (e : ε) (f : α → Except ε β) :
    (Except.error e : Except ε α) >>= f = .error e := rfl

/-- Evaluation helper: mapping over a successful `Except`. -/
theorem exceptMapOk {ε : Type u} {α β : Type v} (f : α → β) (x : α) :
    ((Except.ok x : Except ε α).map f) = .ok (f x) := rfl

/-- An element table resolving only carbon, used as a concrete witness
input. -/
def carbonTable : Collab where
  getElement := fun s => if s = "C" then some ⟨"C", 6⟩ else Option.none
  getAtomic := fun _ => Option.none
  parseSymOp := fun _ => (id3, (0, 0, 0))
  interpretHallSymbol := fun _ => []

end

noncomputable section

/-- Claim C6: for every fully periodic model, `get_scaled_positions` returns
for each atom the row-vector product `p · inv_cell`; in particular, the model
constructed with cell `[[1,1,0],[2,-2,0],[0,0,2]]` and Cartesian position
`[0.5, 0.5, 1]` has scaled positions `[[0.5, 0, 0.5]]`. -/
theorem C6_scaled_positions :
    (∀ (a : AtomsModel) (ic : Mat3), a.inv_cell = some ic →
      a.get_scaled_positions = a.positions.map (fun p => vecMulMat p ic)) ∧
    (mkAtoms carbonTable [.str "C"] [(1/2, 1/2, 1)]
        (.arr [.vec [1, 1, 0], .vec [2, -2, 0], .vec [0, 0, 2]]) false false).map
      AtomsModel.get_scaled_positions = .ok [(1/2, 0, 1/2)] := by
  constructor
  · intro a ic h
    simp [AtomsModel.get_scaled_positions, h, vecMulMat]
  · simp only [mkAtoms, resolveAll, resolveSpecies, carbonTable, resolveCell,
      resolveCellRows, resolveCellRow, v3OfList, exceptOkBind, exceptMapOk]
    norm_num
    simp only [exceptOkBind, exceptMapOk, AtomsModel.get_scaled_positions,
      rowsToMat, inv3, det3]
    norm_num

/-- Witness for C6: the universally quantified part applied to a concrete
fully periodic model with the identity inverse cell. -/
theorem C6_scaled_positions_witness :
    (⟨0, [], [], [], Option.none, some id3, [true, true, true],
        Option.none⟩ : AtomsModel).inv_cell = some id3 ∧
      (⟨0, [], [], [], Option.none, some id3, [true, true, true],
          Option.none⟩ : AtomsModel).get_scaled_positions
        = (⟨0, [], [], [], Option.none, some id3, [true, true, true],
            Option.none⟩ : AtomsModel).positions.map (fun p => vecMulMat p id3) :=
  ⟨rfl, C6_scaled_positions.1 _ id3 rfl⟩

end

noncomputable section

/-- A data block with one carbon site at the origin (explicit Cartesian
coordinates) and no cell tags. -/
def blockNoCell : Block :=
  [("_atom_site_label", .loop [⟨"C1", .str "C1"⟩]),
   ("_atom_site_type_symbol", .loop [⟨"C", .str "C"⟩]),
   ("_atom_site_Cartn_x", .loop [⟨"0", .num 0⟩]),
   ("_atom_site_Cartn_y", .loop [⟨"0", .num 0⟩]),
   ("_atom_site_Cartn_z", .loop [⟨"0", .num 0⟩])]

/-- The same carbon site together with a full set of cell parameter tags
(`a = b = c = 1`, `α = β = γ = 90`). -/
def blockWithCell : Block :=
  [("_atom_site_label", .loop [⟨"C1", .str "C1"⟩]),
   ("_atom_site_type_symbol", .loop [⟨"C", .str "C"⟩]),
   ("_atom_site_Cartn_x", .loop [⟨"0", .num 0⟩]),
   ("_atom_site_Cartn_y", .loop [⟨"0", .num 0⟩]),
   ("_atom_site_Cartn_z", .loop [⟨"0", .num 0⟩]),
   ("_cell_length_a", .single ⟨"1", .num 1⟩),
   ("_cell_length_b", .single ⟨"1", .num 1⟩),
   ("_cell_length_c", .single ⟨"1", .num 1⟩),
   ("_cell_angle_alpha", .single ⟨"90", .num 90⟩),
   ("_cell_angle_beta", .single ⟨"90", .num 90⟩),
   ("_cell_angle_gamma", .single ⟨"90", .num 90⟩)]

/-- The cell parameters of `blockWithCell`. -/
theorem cellparsWithCell : _cellpars blockWithCell = some ((1, 1, 1), (90, 90, 90)) := by
  rw [show _cellpars blockWithCell =
    (if ((1 : ℝ) = 0 ∨ (1 : ℝ) = 0 ∨ (1 : ℝ) = 0) then Option.none
     else some ((1, 1, 1), (90, 90, 90))) from rfl]
  rw [if_neg (by norm_num)]

/-- Claim C2 (bug demonstration): the model produced for a block does
**not** depend only on that block's own contents.  `readCif` declares
`var cell` inside `if (pbc) { var cell = ... }` (cryst.js lines 460-462);
since JS `var` is function-scoped, a block without cell parameters receives
the `cell` left over from an earlier block at line 527.  Concretely: block
`"B"` (`blockNoCell`, identical in both documents) yields an aperiodic model
(`pbc = [false,false,false]`) when processed alone, but a fully periodic
model (`pbc = [true,true,true]`) when an earlier block `"A"` supplied cell
parameters. -/
theorem C2_stale_cell_across_blocks :
    (readCif carbonTable [("B", blockNoCell)] (1/1000)).map
        (fun l => l.map (fun p => (p.1, p.2.pbc)))
      = .ok [("B", [false, false, false])] ∧
    (readCif carbonTable [("A", blockWithCell), ("B", blockNoCell)] (1/1000)).map
        (fun l => l.map (fun p => (p.1, p.2.pbc)))
      = .ok [("A", [true, true, true]), ("B", [true, true, true])] := by
  constructor
  · simp only [readCif, readCifGo, readCifStep, exceptOkBind]
    norm_num
    rfl
  · simp only [readCif, readCifGo, readCifStep, cellparsWithCell, exceptOkBind]
    norm_num
    rfl

end

noncomputable section

/-- The three cell-length tags of `_cellpars`. -/
def cellLengthTags : List String :=
  ["_cell_length_a", "_cell_length_b", "_cell_length_c"]

/-- An `Atoms` model built with no cell is aperiodic: `pbc` all false, no
cell rows, no inverse cell. -/
theorem mkAtoms_none_cell (c : Collab) (elems : List JElem) (positions : List Vec3)
    (scaled tolerant : Bool) (a : AtomsModel)
    (h : mkAtoms c elems positions .none scaled tolerant = .ok a) :
    a.pbc = [false, false, false] ∧ a.cell = Option.none ∧ a.inv_cell = Option.none := by
  cases hr : resolveAll c tolerant elems with
  | none =>
    simp only [mkAtoms, hr] at h
    simp at h
  | some resolved =>
    cases scaled with
    | false =>
      simp only [mkAtoms, hr, resolveCell, exceptOkBind, exceptErrBind,
        Bool.false_eq_true, if_false] at h
      split at h
      · simp at h
      · rw [Except.ok.injEq] at h
        rw [← h]
        exact ⟨rfl, rfl, rfl⟩
    | true =>
      simp only [mkAtoms, hr, resolveCell, exceptOkBind, exceptErrBind, if_true] at h
      split at h <;> simp [exceptErrBind] at h

set_option maxHeartbeats 1000000 in
/-- Claim C8: `_cellpars` returns `none` whenever any cell-length tag is
absent from the block or any of the three length values equals exactly zero
(part 1); that `none` outcome is treated identically to absent cell data —
two blocks with the same extracted sites whose cell parameters both resolve
to `none` are processed identically by `readCif`'s block step (part 2); and
when no stale cell is pending from an earlier block, such a block is
processed as aperiodic without any cell-related error: a successful result
has `pbc = [false,false,false]` and no cell (part 3). -/
theorem C8_cellpars_soft_fail :
    (∀ b : Block, ((∃ t ∈ cellLengthTags, lookupTag b t = none) ∨
        (∃ t ∈ cellLengthTags, ∃ e, lookupTag b t = some e ∧ getCellVal e = 0)) →
      _cellpars b = none) ∧
    (∀ (c : Collab) (symtol : ℝ) (st : Option Mat3) (b1 b2 : Block),
      _atom_sites b1 = _atom_sites b2 → _cellpars b1 = none → _cellpars b2 = none →
      readCifStep c symtol st b1 = readCifStep c symtol st b2) ∧
    (∀ (c : Collab) (symtol : ℝ) (b : Block) (r : Option Mat3 × AtomsModel),
      _cellpars b = none → readCifStep c symtol Option.none b = .ok r →
      r.1 = Option.none ∧ r.2.pbc = [false, false, false] ∧ r.2.cell = Option.none) := by
  refine ⟨?_, ?_, ?_⟩
  · intro b h
    rcases h with ⟨t, ht, hnone⟩ | ⟨t, ht, e, hsome, hzero⟩
    · simp only [cellLengthTags, List.mem_cons, List.not_mem_nil, or_false] at ht
      rcases ht with rfl | rfl | rfl
      · simp [_cellpars, hnone]
      · cases h1 : lookupTag b "_cell_length_a" <;> simp [_cellpars, h1, hnone]
      · cases h1 : lookupTag b "_cell_length_a" <;>
          cases h2 : lookupTag b "_cell_length_b" <;> simp [_cellpars, h1, h2, hnone]
    · simp only [cellLengthTags, List.mem_cons, List.not_mem_nil, or_false] at ht
      rcases ht with rfl | rfl | rfl <;>
        cases h1 : lookupTag b "_cell_length_a" <;>
        cases h2 : lookupTag b "_cell_length_b" <;>
        cases h3 : lookupTag b "_cell_length_c" <;>
        cases h4 : lookupTag b "_cell_angle_alpha" <;>
        cases h5 : lookupTag b "_cell_angle_beta" <;>
        cases h6 : lookupTag b "_cell_angle_gamma" <;>
        simp_all [_cellpars]
  · intro c symtol st b1 b2 h1 h2 h3
    simp [readCifStep, h1, h2, h3]
  · intro c symtol b r h2 hok
    simp only [readCifStep, h2, Option.isSome_none, Option.getD_none, cellArgOfState,
      Bool.false_eq_true, if_false] at hok
    cases hp : resolvePositions false id3 ((_atom_sites b).getD []) with
    | error e => rw [hp] at hok; simp [exceptErrBind] at hok
    | ok ps =>
      rw [hp, exceptOkBind] at hok
      cases hm : mkAtoms c (List.map (fun s => rvalToJElem s.type_symbol)
          ((_atom_sites b).getD [])) ps CellArg.none false false with
      | error e => rw [hm] at hok; simp [exceptErrBind] at hok
      | ok a =>
        rw [hm, exceptOkBind] at hok
        have hfields := mkAtoms_none_cell _ _ _ _ _ a hm
        split at hok
        · rw [Except.ok.injEq] at hok
          rw [← hok]
          exact ⟨rfl, hfields.1, hfields.2.1⟩
        · simp at hok

end

noncomputable section

/-- The carbon-site block with a zero `_cell_length_a` (all six cell tags
present). -/
def blockZeroCell : Block :=
  [("_atom_site_label", .loop [⟨"C1", .str "C1"⟩]),
   ("_atom_site_type_symbol", .loop [⟨"C", .str "C"⟩]),
   ("_atom_site_Cartn_x", .loop [⟨"0", .num 0⟩]),
   ("_atom_site_Cartn_y", .loop [⟨"0", .num 0⟩]),
   ("_atom_site_Cartn_z", .loop [⟨"0", .num 0⟩]),
   ("_cell_length_a", .single ⟨"0", .num 0⟩),
   ("_cell_length_b", .single ⟨"1", .num 1⟩),
   ("_cell_length_c", .single ⟨"1", .num 1⟩),
   ("_cell_angle_alpha", .single ⟨"90", .num 90⟩),
   ("_cell_angle_beta", .single ⟨"90", .num 90⟩),
   ("_cell_angle_gamma", .single ⟨"90", .num 90⟩)]

/-- Witness for C8 at the concrete block with a zero `_cell_length_a`: its
cell parameters resolve to `none`, it is processed exactly like the same
block without any cell tags, and the resulting model is aperiodic. -/
theorem C8_cellpars_soft_fail_witness :
    lookupTag blockZeroCell "_cell_length_a" = some (.single ⟨"0", .num 0⟩) ∧
      _cellpars blockZeroCell = none ∧
      readCifStep carbonTable (1/1000) Option.none blockZeroCell
        = readCifStep carbonTable (1/1000) Option.none blockNoCell ∧
      readCifStep carbonTable (1/1000) Option.none blockZeroCell
        = .ok (Option.none, ⟨1, [.str "C"], [6], [(0, 0, 0)], Option.none, Option.none,
            [false, false, false], some [some (.str "C1")]⟩) ∧
      (⟨1, [.str "C"], [6], [(0, 0, 0)], Option.none, Option.none,
          [false, false, false], some [some (.str "C1")]⟩ : AtomsModel).pbc
        = [false, false, false] := by
  have hz : _cellpars blockZeroCell = none :=
    C8_cellpars_soft_fail.1 blockZeroCell
      (Or.inr ⟨"_cell_length_a", by simp [cellLengthTags], .single ⟨"0", .num 0⟩, rfl, rfl⟩)
  have heq : readCifStep carbonTable (1/1000) Option.none blockZeroCell
      = readCifStep carbonTable (1/1000) Option.none blockNoCell :=
    C8_cellpars_soft_fail.2.1 carbonTable (1/1000) Option.none blockZeroCell blockNoCell
      rfl hz rfl
  have hok : readCifStep carbonTable (1/1000) Option.none blockNoCell
      = .ok (Option.none, ⟨1, [.str "C"], [6], [(0, 0, 0)], Option.none, Option.none,
          [false, false, false], some [some (.str "C1")]⟩) := by
    simp only [readCifStep, exceptOkBind]
    norm_num
    rfl
  refine ⟨rfl, hz, heq, heq.trans hok, ?_⟩
  exact (C8_cellpars_soft_fail.2.2 carbonTable (1/1000) blockZeroCell _ hz
    (heq.trans hok)).2.1

end

section

/-- A heap of JS arrays: addresses index the allocated arrays.  This models
JS reference semantics for the aliasing analysis of the `Atoms` getters:
arrays are mutable cells, and returning an array either hands out the
internal reference or a freshly allocated copy. -/
structure HeapM (α : Type) where
  cells : List (List α)

/-- Read the array at an address. -/
def readA {α : Type} (h : HeapM α) (a : ℕ) : List α := (h.cells.get? a).getD []

/-- Mutate one element of the array at an address (a write through a JS
array reference). -/
def writeA {α : Type} (h : HeapM α) (a i : ℕ) (x : α) : HeapM α :=
  ⟨h.cells.set a ((readA h a).set i x)⟩

/-- Allocate a fresh array. -/
def allocA {α : Type} (h : HeapM α) (v : List α) : HeapM α × ℕ :=
  (⟨h.cells ++ [v]⟩, h.cells.length)

/-- Modelled from the spec: `utils.deepClone` (utils.js is not in the
sources) — "all accessors return independent copies": a fresh array with
the same contents. -/
def deepCloneA {α : Type} (h : HeapM α) (a : ℕ) : HeapM α × ℕ :=
  allocA h (readA h a)

/-- The reference state of one `Atoms` instance: the name-to-address map of
its internally held arrays (`this._arrays`, and — for this aliasing analysis
— the `_cell`, `_inv_cell` and `_pbc` fields held the same way). -/
structure AtomsRefs where
  arrays : List (String × ℕ)

/-- `get_array` (cryst.js lines 241-243): `return this._arrays[name]` — the
**internal reference**, with no clone. -/
def get_array (o : AtomsRefs) (n : String) : Option ℕ := o.arrays.lookup n

/-- The shape shared by the cloning getters (cryst.js lines 244-261):
`utils.deepClone(...)` of the internally held array — a fresh address. -/
def cloneGet {α : Type} (h : HeapM α) (o : AtomsRefs) (n : String) :
    HeapM α × Option ℕ :=
  match o.arrays.lookup n with
  | some a => ((deepCloneA h a).1, some (deepCloneA h a).2)
  | none => (h, none)

/-- `get_chemical_symbols` (cryst.js lines 244-246): a deep clone. -/
def get_chemical_symbols {α : Type} (h : HeapM α) (o : AtomsRefs) : HeapM α × Option ℕ :=
  cloneGet h o "symbols"

/-- `get_atomic_numbers` (cryst.js lines 247-249): a deep clone. -/
def get_atomic_numbers {α : Type} (h : HeapM α) (o : AtomsRefs) : HeapM α × Option ℕ :=
  cloneGet h o "numbers"

/-- `get_cell` (cryst.js lines 250-252): a deep clone. -/
def get_cell {α : Type} (h : HeapM α) (o : AtomsRefs) : HeapM α × Option ℕ :=
  cloneGet h o "cell"

/-- `get_inv_cell` (cryst.js lines 253-255): a deep clone. -/
def get_inv_cell {α : Type} (h : HeapM α) (o : AtomsRefs) : HeapM α × Option ℕ :=
  cloneGet h o "inv_cell"

/-- `get_pbc` (cryst.js lines 256-258): a deep clone. -/
def get_pbc {α : Type} (h : HeapM α) (o : AtomsRefs) : HeapM α × Option ℕ :=
  cloneGet h o "pbc"

/-- `get_positions` (cryst.js lines 259-261): a deep clone. -/
def get_positions {α : Type} (h : HeapM α) (o : AtomsRefs) : HeapM α × Option ℕ :=
  cloneGet h o "positions"

/-- A query of the model's internal state: the contents of the internally
held array of the given name. -/
def queryArr {α : Type} (h : HeapM α) (o : AtomsRefs) (n : String) : Option (List α) :=
  (o.arrays.lookup n).map (readA h)

/-- Reading an untouched address after a write elsewhere. -/
theorem readA_writeA_ne {α : Type} (h : HeapM α) (a i : ℕ) (x : α) (b : ℕ)
    (hne : a ≠ b) : readA (writeA h a i x) b = readA h b := by
  rw [readA, writeA]
  rw [show (⟨h.cells.set a ((readA h a).set i x)⟩ : HeapM α).cells
    = h.cells.set a ((readA h a).set i x) from rfl]
  rw [List.get?_set_ne _ _ hne]
  rfl

/-- Reading a low address after an allocation. -/
theorem readA_allocA {α : Type} (h : HeapM α) (v : List α) (b : ℕ)
    (hb : b < h.cells.length) : readA (⟨h.cells ++ [v]⟩ : HeapM α) b = readA h b := by
  rw [readA, readA]
  rw [show (⟨h.cells ++ [v]⟩ : HeapM α).cells = h.cells ++ [v] from rfl]
  rw [List.get?_append hb]

end

section

/-- A one-array heap holding the labels array `["A1"]` at address 0. -/
def labelsHeap : HeapM String := ⟨[["A1"]]⟩

/-- An `Atoms` reference state whose `labels` array lives at address 0. -/
def labelsObj : AtomsRefs := ⟨[("labels", 0)]⟩

/-- Claim C3 (counterexample): `get_array` does **not** return an
independent copy — it returns the internal reference (cryst.js line 242
`return this._arrays[name]`, with no clone).  Mutating the value fetched by
name through `get_array` changes the result of every subsequent query: here
the `labels` array read back after the mutation is `["X"]`, not the original
`["A1"]`. -/
theorem C3_counterexample :
    get_array labelsObj "labels" = some 0 ∧
      queryArr labelsHeap labelsObj "labels" = some ["A1"] ∧
      queryArr (writeA labelsHeap 0 0 "X") labelsObj "labels" = some ["X"] ∧
      queryArr (writeA labelsHeap 0 0 "X") labelsObj "labels"
        ≠ queryArr labelsHeap labelsObj "labels" := by
  refine ⟨rfl, rfl, rfl, ?_⟩
  intro h
  simp [queryArr, labelsHeap, labelsObj, writeA, readA] at h

/-- Claim C3 (amended): the named accessors — chemical symbols, atomic
numbers, cell, inverse cell, pbc flags, Cartesian positions — go through
`deepClone` and return a **fresh** array disjoint from all internal storage,
so any sequence of element writes through the returned value leaves every
subsequent query result unchanged; `get_array`, by contrast, returns the
internal reference (see the counterexample).  Stated for the common
`cloneGet` shape, of which the six named getters are instances. -/
theorem C3_clone_getters_amended {α : Type} (h : HeapM α) (o : AtomsRefs) (n : String)
    (hwf : ∀ m b, o.arrays.lookup m = some b → b < h.cells.length)
    (h' : HeapM α) (r : ℕ) (hc : cloneGet h o n = (h', some r)) :
    (get_chemical_symbols h o = cloneGet h o "symbols" ∧
      get_atomic_numbers h o = cloneGet h o "numbers" ∧
      get_cell h o = cloneGet h o "cell" ∧
      get_inv_cell h o = cloneGet h o "inv_cell" ∧
      get_pbc h o = cloneGet h o "pbc" ∧
      get_positions h o = cloneGet h o "positions") ∧
    (∀ m b, o.arrays.lookup m = some b → b ≠ r) ∧
    (∀ m, queryArr h' o m = queryArr h o m) ∧
    (∀ i x m, queryArr (writeA h' r i x) o m = queryArr h o m) := by
  cases hl : o.arrays.lookup n with
  | none =>
    rw [cloneGet, hl] at hc
    simp at hc
  | some a =>
    rw [cloneGet, hl] at hc
    rw [Prod.mk.injEq] at hc
    obtain ⟨hh, hr⟩ := hc
    rw [Option.some.injEq] at hr
    have hh' : h' = ⟨h.cells ++ [readA h a]⟩ := hh.symm
    have hr' : r = h.cells.length := hr.symm
    subst hh'
    subst hr'
    refine ⟨⟨rfl, rfl, rfl, rfl, rfl, rfl⟩, ?_, ?_, ?_⟩
    · intro m b hmb
      have := hwf m b hmb
      omega
    · intro m
      rw [queryArr, queryArr]
      cases hm : o.arrays.lookup m with
      | none => rfl
      | some b =>
        have hb := hwf m b hm
        simp only [Option.map_some']
        rw [readA_allocA h (readA h a) b hb]
    · intro i x m
      rw [queryArr, queryArr]
      cases hm : o.arrays.lookup m with
      | none => rfl
      | some b =>
        have hb := hwf m b hm
        simp only [Option.map_some']
        rw [readA_writeA_ne _ _ _ _ _ (by omega : h.cells.length ≠ b)]
        rw [readA_allocA h (readA h a) b hb]

/-- Witness for C3 (amended) on a concrete one-array heap: cloning the
`symbols` array yields the fresh address 1, and writing through the clone
leaves the internal `symbols` array unchanged. -/
theorem C3_clone_getters_amended_witness :
    cloneGet (⟨[["C"]]⟩ : HeapM String) (⟨[("symbols", 0)]⟩ : AtomsRefs) "symbols"
        = (⟨[["C"], ["C"]]⟩, some 1) ∧
      (∀ i x m, queryArr (writeA (⟨[["C"], ["C"]]⟩ : HeapM String) 1 i x)
          (⟨[("symbols", 0)]⟩ : AtomsRefs) m
        = queryArr (⟨[["C"]]⟩ : HeapM String) (⟨[("symbols", 0)]⟩ : AtomsRefs) m) := by
  refine ⟨rfl, ?_⟩
  exact (C3_clone_getters_amended (⟨[["C"]]⟩ : HeapM String)
    (⟨[("symbols", 0)]⟩ : AtomsRefs) "symbols"
    (by
      intro m b hmb
      simp only [show (⟨[("symbols", 0)]⟩ : AtomsRefs).arrays = [("symbols", 0)] from rfl,
        List.lookup] at hmb
      split at hmb
      · simp only [Option.some.injEq] at hmb
        rw [← hmb]
        decide
      · simp [List.lookup] at hmb) _ _ rfl).2.2.2

end
